import Mathlib

/-!
# Sanitizer example programs of `cmake-scripts` (`example/`)

Six stand-alone programs, each built to exhibit one memory or concurrency fault:

* `example/src/asan/out_of_bounds_heap.c`
* `example/src/asan/use_after_return.c`
* `example/src/asan/use_after_scope.c`
* `example/src/ubsan/dereferencing_misaligned_pointer.c`
* `example/src/tsan/data_race.cpp`
* `example/tsan_fail.cpp`

The four C programs are embedded as state-passing functions over an explicit
byte-addressed machine (`Machine`): heap blocks, automatic storage, the pointer
variable `array`, the text of every `printf`, and a record of every `int` read
together with the storage that was live when it happened.  Automatic storage is
handed out upwards from the stack pointer; only the disjointness of live objects
matters to the results.  The two C++ programs are embedded as statement lists run
by a two-thread interleaving scheduler in which every statement is one step.

Whatever the source leaves to the platform or the run (the size and alignment of
`int`, the address `malloc` returns, the stack pointer, the initial memory
contents, the thread schedule) is a field of `Env`.
-/

set_option linter.unusedVariables false

namespace SanitizerExamples

/-! ## Memory model -/

/-- A contiguous byte range `[base, base + size)`. -/
structure Extent where
  base : Nat
  size : Nat
deriving DecidableEq

/-- Byte address `b` lies inside the extent. -/
def Extent.contains (e : Extent) (b : Nat) : Prop :=
  e.base ≤ b ∧ b < e.base + e.size

instance Extent.decContains (e : Extent) (b : Nat) : Decidable (e.contains b) := by
  unfold Extent.contains
  infer_instance

/-- One `int` read through a pointer: the bytes addressed, the value obtained and the
storage (heap blocks and automatic objects) that was live at that moment. -/
structure Access where
  ext : Extent
  value : Int
  live : List Extent
deriving DecidableEq

/-- The two threads of the C++ programs. -/
inductive Tid where
  | main
  | t
deriving DecidableEq

/-- Everything the source leaves to the platform or to the particular run. -/
structure Env where
  /-- `sizeof(int)` -/
  sizeofInt : Nat
  /-- size of a pointer (`char **`, `int *`) -/
  sizeofPtr : Nat
  /-- `alignof(int)` -/
  alignofInt : Nat
  /-- the address returned by the (successful) call of `malloc` -/
  mallocBase : Nat
  /-- first free byte of the stack when `main` is entered -/
  sp : Nat
  /-- initial memory contents, one byte per address (taken modulo 256) -/
  mem : Nat → Nat
  /-- which thread the scheduler prefers at each step -/
  sched : Nat → Tid

/-- The `s` bytes stored at `a, a + 1, ...`. -/
def readBytes (mem : Nat → Nat) (a : Nat) : Nat → List Nat
  | 0 => []
  | n + 1 => mem a % 256 :: readBytes mem (a + 1) n

/-- Unsigned value of a little-endian byte string. -/
def leValue : List Nat → Nat
  | [] => 0
  | b :: bs => b + 256 * leValue bs

/-- Two's complement reading of an unsigned value of the given width. -/
def toSigned (bits : Nat) (u : Nat) : Int :=
  if 2 * u < 2 ^ bits then (u : Int) else (u : Int) - 2 ^ bits

/-- The `int` stored in the `s` bytes at address `a`. -/
def decodeInt (mem : Nat → Nat) (a s : Nat) : Int :=
  toSigned (8 * s) (leValue (readBytes mem a s))

/-- Machine state of the single-threaded C programs. -/
structure Machine where
  /-- byte memory -/
  mem : Nat → Nat
  /-- live `malloc` blocks -/
  heap : List Extent
  /-- live automatic storage (call frames and block-scoped objects), innermost first -/
  stack : List Extent
  /-- first free byte above the live automatic storage -/
  sp : Nat
  /-- value of the pointer variable `array` -/
  array : Nat
  /-- text of each `printf` call, in order -/
  out : List String
  /-- every `int` read through a pointer, in order -/
  loads : List Access

/-- State on entry to `main`; the pointer `array` has not been assigned yet (its value is
taken to be 0, the value of a zero-initialised global). -/
def Machine.init (env : Env) : Machine :=
  { mem := env.mem, heap := [], stack := [], sp := env.sp, array := 0, out := [], loads := [] }

/-- Storage that is live: heap blocks and automatic objects. -/
def Machine.live (m : Machine) : List Extent :=
  m.heap ++ m.stack

/-- A successful `malloc(n)` that returns `base`: the block `[base, base + n)` is granted. -/
def Machine.malloc (m : Machine) (base n : Nat) : Nat × Machine :=
  (base, { m with heap := ⟨base, n⟩ :: m.heap })

/-- The call `free(p)`: the block starting at `p` is released. -/
def Machine.free (m : Machine) (p : Nat) : Machine :=
  { m with heap := m.heap.filter (fun e => decide (e.base ≠ p)) }

/-- The call `memset(p, c, n)`. -/
def Machine.memset (m : Machine) (p c n : Nat) : Machine :=
  { m with mem := fun b => if p ≤ b ∧ b < p + n then c % 256 else m.mem b }

/-- Read an `int` of `s` bytes at address `p`; unaligned and out-of-extent addresses are
served from the byte memory like any other. -/
def Machine.loadInt (m : Machine) (p s : Nat) : Int × Machine :=
  let v := decodeInt m.mem p s
  (v, { m with loads := m.loads ++ [{ ext := ⟨p, s⟩, value := v, live := m.live }] })

/-- One call of `printf` producing `text`. -/
def Machine.printf (m : Machine) (text : String) : Machine :=
  { m with out := m.out ++ [text] }

/-- Begin the lifetime of `n` bytes of automatic storage (a call frame or the objects of
a block), placed at the stack pointer; returns their address. -/
def Machine.pushAuto (m : Machine) (n : Nat) : Nat × Machine :=
  (m.sp, { m with stack := ⟨m.sp, n⟩ :: m.stack, sp := m.sp + n })

/-- End the lifetime of the innermost automatic storage. -/
def Machine.popAuto (m : Machine) : Machine :=
  match m.stack with
  | [] => m
  | e :: rest => { m with stack := rest, sp := e.base }

/-- Rendering of the conversion `%i`. -/
def fmt_i (v : Int) : String :=
  toString v

/-! ## `example/src/asan/out_of_bounds_heap.c` -/

namespace out_of_bounds_heap

/-- Function `main` of `out_of_bounds_heap.c`. -/
def main (argc : Int) (argv : List String) (env : Env) : Machine × Int :=
  let m := Machine.init env
  -- int *array = malloc(sizeof(int));
  let (array, m) := m.malloc env.mallocBase env.sizeofInt
  let m := { m with array := array }
  -- printf("val: %i\n", array[1]);
  let (v, m) := m.loadInt (m.array + 1 * env.sizeofInt) env.sizeofInt
  let m := m.printf ("val: " ++ fmt_i v ++ "\n")
  -- free(array);
  let m := m.free m.array
  -- return 0;
  (m, 0)

end out_of_bounds_heap

/-! ## `example/src/asan/use_after_return.c` -/

namespace use_after_return

/-- Function `setPointerWithEscapedData` up to, not including, its return: the frame
holding `int internalArray[1]` is live and the global `array` has been assigned. -/
def setPointerWithEscapedData_body (env : Env) (m : Machine) : Machine :=
  -- int internalArray[1];
  let (internalArray, m) := m.pushAuto (1 * env.sizeofInt)
  -- array = internalArray;
  { m with array := internalArray }

/-- Function `setPointerWithEscapedData`: the body, then the return that retires the
frame. -/
def setPointerWithEscapedData (env : Env) (m : Machine) : Machine :=
  (setPointerWithEscapedData_body env m).popAuto

/-- State in which `main` starts to run: its frame holds the parameters `argc` and
`argv`; the global `int *array` is zero-initialised. -/
def main_entry (env : Env) : Machine :=
  ((Machine.init env).pushAuto (env.sizeofInt + env.sizeofPtr)).2

/-- Function `main` of `use_after_return.c`. -/
def main (argc : Int) (argv : List String) (env : Env) : Machine × Int :=
  let m := main_entry env
  -- setPointerWithEscapedData();
  let m := setPointerWithEscapedData env m
  -- printf("val: %i\n", array[0]);
  let (v, m) := m.loadInt (m.array + 0 * env.sizeofInt) env.sizeofInt
  let m := m.printf ("val: " ++ fmt_i v ++ "\n")
  -- return 0;
  (m, 0)

end use_after_return

/-! ## `example/src/asan/use_after_scope.c` -/

namespace use_after_scope

/-- State in which `main` starts to run: its frame holds `argc`, `argv` and the
uninitialised pointer `array`. -/
def main_entry (env : Env) : Machine :=
  ((Machine.init env).pushAuto (env.sizeofInt + env.sizeofPtr + env.sizeofPtr)).2

/-- The inner block of `main` up to, not including, its closing brace. -/
def main_block_body (env : Env) (m : Machine) : Machine :=
  -- int internalArray[1];
  let (internalArray, m) := m.pushAuto (1 * env.sizeofInt)
  -- array = internalArray;
  { m with array := internalArray }

/-- The inner block of `main`: the body, then the closing brace that ends the lifetime
of `internalArray`. -/
def main_block (env : Env) (m : Machine) : Machine :=
  (main_block_body env m).popAuto

/-- Function `main` of `use_after_scope.c`. -/
def main (argc : Int) (argv : List String) (env : Env) : Machine × Int :=
  -- int *array;
  let m := main_entry env
  -- { int internalArray[1]; array = internalArray; }
  let m := main_block env m
  -- printf("val: %i\n", array[0]);
  let (v, m) := m.loadInt (m.array + 0 * env.sizeofInt) env.sizeofInt
  let m := m.printf ("val: " ++ fmt_i v ++ "\n")
  -- return 0;
  (m, 0)

end use_after_scope

/-! ## `example/src/ubsan/dereferencing_misaligned_pointer.c` -/

namespace dereferencing_misaligned_pointer

/-- The pointer `misArray = (int *)((char *)(array) + 1)`: one byte past `array`. -/
def misArray (array : Nat) : Nat :=
  array + 1

/-- Function `main` of `dereferencing_misaligned_pointer.c`. -/
def main (argc : Int) (argv : List String) (env : Env) : Machine × Int :=
  let m := Machine.init env
  -- int *array = malloc(10 * sizeof(int));
  let (array, m) := m.malloc env.mallocBase (10 * env.sizeofInt)
  let m := { m with array := array }
  -- memset(array, 0, 10 * sizeof(int));
  let m := m.memset m.array 0 (10 * env.sizeofInt)
  -- printf("aligned: %i", *array);
  let (v, m) := m.loadInt m.array env.sizeofInt
  let m := m.printf ("aligned: " ++ fmt_i v)
  -- int *misArray = (int *)((char *)(array) + 1);
  -- printf("aligned: %i", *misArray);
  let (w, m) := m.loadInt (misArray m.array) env.sizeofInt
  let m := m.printf ("aligned: " ++ fmt_i w)
  -- free(array);
  let m := m.free m.array
  -- return 0;
  (m, 0)

end dereferencing_misaligned_pointer

/-! ## Two-thread interleaving model for the C++ programs -/

/-- Synchronisation performed by a statement. -/
inductive Sync where
  /-- no synchronisation -/
  | none
  /-- construction of a `std::thread`: the new thread starts -/
  | spawn
  /-- `std::thread::join`: waits until the spawned thread has finished -/
  | join
  /-- acquiring a mutex -/
  | lock
  /-- releasing a mutex -/
  | unlock
  /-- an atomic operation -/
  | atomic
  /-- a memory barrier -/
  | fence
deriving DecidableEq

/-- One statement of a thread: the shared object it accesses (with `true` when the access
is a write), the synchronisation it performs, and its effect on the program state. -/
structure Stmt (σ : Type) where
  acc : Option (String × Bool)
  sync : Sync
  eff : σ → σ

/-- A program of two threads: the statements of `main`, the statements of the thread it
spawns, and the state before `main` starts. -/
structure Program (σ : Type) where
  mainCode : List (Stmt σ)
  threadCode : List (Stmt σ)
  init : σ

/-- Run-time configuration: the next statement of `main`, the next statement of the
spawned thread (`none` while it has not been spawned), and the program state. -/
structure Config (σ : Type) where
  pcMain : Nat
  pcT : Option Nat
  st : σ

/-- Code of a thread. -/
def Program.code {σ : Type} (p : Program σ) : Tid → List (Stmt σ)
  | .main => p.mainCode
  | .t => p.threadCode

/-- Configuration before the first statement of `main`. -/
def Program.start {σ : Type} (p : Program σ) : Config σ :=
  { pcMain := 0, pcT := none, st := p.init }

/-- One statement of `main`, when `main` can move: a spawn starts the thread, a join
waits for the thread to have run all its statements, anything else applies its effect
(neither program has a mutex, atomic or barrier statement, so none of them ever blocks
here). -/
def Program.stepMain {σ : Type} (p : Program σ) (c : Config σ) : Option (Config σ) :=
  match p.mainCode[c.pcMain]? with
  | none => none
  | some s =>
    match s.sync with
    | .spawn => some { c with pcMain := c.pcMain + 1, pcT := some 0 }
    | .join =>
      if c.pcT = some p.threadCode.length then some { c with pcMain := c.pcMain + 1 }
      else none
    | _ => some { c with pcMain := c.pcMain + 1, st := s.eff c.st }

/-- One statement of the spawned thread, when it has been spawned and has not finished. -/
def Program.stepT {σ : Type} (p : Program σ) (c : Config σ) : Option (Config σ) :=
  match c.pcT with
  | none => none
  | some i =>
    match p.threadCode[i]? with
    | none => none
    | some s => some { c with pcT := some (i + 1), st := s.eff c.st }

/-- One scheduling step: the preferred thread moves if it can, otherwise the other one
does; a configuration in which neither can move is left as it is. -/
def Program.stepWith {σ : Type} (p : Program σ) (pref : Tid) (c : Config σ) : Config σ :=
  match pref with
  | .main =>
    match p.stepMain c with
    | some c1 => c1
    | none => (p.stepT c).getD c
  | .t =>
    match p.stepT c with
    | some c1 => c1
    | none => (p.stepMain c).getD c

/-- The configuration after `n` scheduling steps under the schedule `sched`. -/
def Program.run {σ : Type} (p : Program σ) (sched : Nat → Tid) : Nat → Config σ
  | 0 => p.start
  | n + 1 => p.stepWith (sched n) (p.run sched n)

/-- Number of scheduling steps after which every statement of both threads has run. -/
def Program.steps {σ : Type} (p : Program σ) : Nat :=
  p.mainCode.length + p.threadCode.length

/-- Function `main` has returned. -/
def Program.finished {σ : Type} (p : Program σ) (c : Config σ) : Prop :=
  c.pcMain = p.mainCode.length

/-- A synchronisation that publishes the effects that precede it. -/
def Sync.releases : Sync → Bool
  | .unlock => true
  | .atomic => true
  | .fence => true
  | _ => false

/-- A synchronisation that observes what another thread published. -/
def Sync.acquires : Sync → Bool
  | .lock => true
  | .atomic => true
  | .fence => true
  | _ => false

/-- Direct ordering between two statement occurrences `(thread, index)`: program order
within a thread, thread creation (the spawn precedes the first statement of the thread),
thread completion (the last statement of the thread precedes the join), and
release/acquire pairs of mutex, atomic or barrier operations in different threads. -/
def Program.edge {σ : Type} (p : Program σ) (a b : Tid × Nat) : Prop :=
  (a.1 = b.1 ∧ b.2 = a.2 + 1 ∧ b.2 < (p.code b.1).length)
  ∨ (a.1 = Tid.main ∧ b = (Tid.t, 0) ∧ ∃ s, p.mainCode[a.2]? = some s ∧ s.sync = Sync.spawn)
  ∨ (a.1 = Tid.t ∧ a.2 + 1 = p.threadCode.length ∧ b.1 = Tid.main
      ∧ ∃ s, p.mainCode[b.2]? = some s ∧ s.sync = Sync.join)
  ∨ (a.1 ≠ b.1 ∧ ∃ s r, (p.code a.1)[a.2]? = some s ∧ (p.code b.1)[b.2]? = some r
      ∧ s.sync.releases = true ∧ r.sync.acquires = true)

/-- Happens-before: the transitive closure of the direct orderings. -/
def Program.hb {σ : Type} (p : Program σ) : Tid × Nat → Tid × Nat → Prop :=
  Relation.TransGen p.edge

/-- Indices of the statements of a thread that perform the given synchronisation. -/
def syncIndices {σ : Type} (code : List (Stmt σ)) (k : Sync) : List Nat :=
  (List.range code.length).filter (fun i => (code[i]?.map (fun s => decide (s.sync = k))).getD false)

/-- The statement uses a mutex, an atomic operation or a memory barrier. -/
def Stmt.usesSyncPrimitive {σ : Type} (s : Stmt σ) : Bool :=
  s.sync.releases || s.sync.acquires

/-! ## `example/src/tsan/data_race.cpp` -/

namespace data_race

/-- Program state: the local `val` of `main` (shared with the thread through `&val`),
the text printed so far, and the exit code once `main` has returned. -/
structure State where
  val : Int
  out : List String
  exit : Option Int
deriving DecidableEq

/-- Function `threadfunc`, called with `p = &val`. -/
def threadfunc : List (Stmt State) :=
  [ -- *p = 1;
    { acc := some ("val", true), sync := Sync.none, eff := fun s => { s with val := 1 } } ]

/-- Function `main` of `data_race.cpp`. -/
def main : List (Stmt State) :=
  [ -- int val = 0;
    { acc := some ("val", true), sync := Sync.none, eff := fun s => { s with val := 0 } },
    -- std::thread t(threadfunc, &val);
    { acc := none, sync := Sync.spawn, eff := id },
    -- printf("foo=%i\n", val);
    { acc := some ("val", false), sync := Sync.none,
      eff := fun s => { s with out := s.out ++ ["foo=" ++ fmt_i s.val ++ "\n"] } },
    -- t.join();
    { acc := none, sync := Sync.join, eff := id },
    -- } (falling off the end of main returns 0)
    { acc := none, sync := Sync.none, eff := fun s => { s with exit := some 0 } } ]

/-- The whole program. -/
def program : Program State :=
  { mainCode := main, threadCode := threadfunc, init := { val := 0, out := [], exit := none } }

end data_race

/-! ## `example/tsan_fail.cpp` -/

namespace tsan_fail

/-- Type `map_t`, a `std::map<std::string, std::string>`: the entries in increasing key
order, one per key. -/
abbrev map_t := List (String × String)

/-- Key order of the map, `std::less<std::string>`: lexicographic on the characters. -/
def keyLess : List Char → List Char → Bool
  | _, [] => false
  | [], _ :: _ => true
  | a :: as, b :: bs =>
    if a.toNat < b.toNat then true
    else if a.toNat = b.toNat then keyLess as bs
    else false

/-- Set the value mapped to `k`, adding the entry at its place in key order when the key
is absent. -/
def map_assign (k v : String) : map_t → map_t
  | [] => [(k, v)]
  | (k1, v1) :: rest =>
    if keyLess k.data k1.data then (k, v) :: (k1, v1) :: rest
    else if k = k1 then (k, v) :: rest
    else (k1, v1) :: map_assign k v rest

/-- The map after `m[k]` (`std::map::operator[]`): an absent key is inserted with a
value-initialised (empty) string. -/
def map_index (m : map_t) (k : String) : map_t :=
  match m.lookup k with
  | some _ => m
  | none => map_assign k "" m

/-- The string `m[k]` refers to, once `map_index` has run. -/
def map_at (m : map_t) (k : String) : String :=
  (m.lookup k).getD ""

/-- Program state: the map `m` of `main` (shared with the thread through `&m`), the text
printed so far, and the exit code once `main` has returned. -/
structure State where
  m : map_t
  out : List String
  exit : Option Int
deriving DecidableEq

/-- Function `threadfunc`, called with `p = &m`. -/
def threadfunc : List (Stmt State) :=
  [ -- map_t &m = *(map_t *)p;  m["foo"] = "bar";
    { acc := some ("m", true), sync := Sync.none,
      eff := fun s => { s with m := map_assign "foo" "bar" (map_index s.m "foo") } },
    -- return 0;
    { acc := none, sync := Sync.none, eff := id } ]

/-- The access `m["foo"]` made by `main`. -/
def main_access (s : State) : State :=
  { s with m := map_index s.m "foo" }

/-- Function `main` of `tsan_fail.cpp`. -/
def main : List (Stmt State) :=
  [ -- map_t m;
    { acc := some ("m", true), sync := Sync.none, eff := fun s => { s with m := [] } },
    -- std::thread t(threadfunc, &m);
    { acc := none, sync := Sync.spawn, eff := id },
    -- printf("foo=%s\n", m["foo"].c_str());
    { acc := some ("m", true), sync := Sync.none,
      eff := fun s =>
        let s := main_access s
        { s with out := s.out ++ ["foo=" ++ map_at s.m "foo" ++ "\n"] } },
    -- t.join();
    { acc := none, sync := Sync.join, eff := id },
    -- } (falling off the end of main returns 0)
    { acc := none, sync := Sync.none, eff := fun s => { s with exit := some 0 } } ]

/-- The whole program. -/
def program : Program State :=
  { mainCode := main, threadCode := threadfunc, init := { m := [], out := [], exit := none } }

end tsan_fail

/-! ## The six programs as processes -/

/-- The example programs. -/
inductive Example where
  | out_of_bounds_heap
  | use_after_return
  | use_after_scope
  | dereferencing_misaligned_pointer
  | data_race
  | tsan_fail
deriving DecidableEq

/-- Parameter list that `main` declares in each source file. -/
def mainParams : Example → List String
  | .out_of_bounds_heap => ["int argc", "char **argv"]
  | .use_after_return => ["int argc", "char **argv"]
  | .use_after_scope => ["int argc", "char **argv"]
  | .dereferencing_misaligned_pointer => ["int argc", "char **argv"]
  | .data_race => []
  | .tsan_fail => []

/-- What a run of a program shows: the text of each `printf` call in order, and the exit
code (`none` if `main` has not returned). -/
structure Outcome where
  out : List String
  exit : Option Int
deriving DecidableEq

/-- Outcome of a C program. -/
def Outcome.ofC (r : Machine × Int) : Outcome :=
  { out := r.1.out, exit := some r.2 }

/-- Run a program as a process started with the arguments `argc`, `argv`: the C programs
receive both in `main`; the C++ programs declare `main()`, which receives neither, and
are run under the schedule of `env` for as many steps as they have statements. -/
def exec : Example → Int → List String → Env → Outcome
  | .out_of_bounds_heap, argc, argv, env => Outcome.ofC (out_of_bounds_heap.main argc argv env)
  | .use_after_return, argc, argv, env => Outcome.ofC (use_after_return.main argc argv env)
  | .use_after_scope, argc, argv, env => Outcome.ofC (use_after_scope.main argc argv env)
  | .dereferencing_misaligned_pointer, argc, argv, env =>
    Outcome.ofC (dereferencing_misaligned_pointer.main argc argv env)
  | .data_race, _, _, env =>
    let c := data_race.program.run env.sched data_race.program.steps
    { out := c.st.out, exit := c.st.exit }
  | .tsan_fail, _, _, env =>
    let c := tsan_fail.program.run env.sched tsan_fail.program.steps
    { out := c.st.out, exit := c.st.exit }

/-- Modelled from the spec: the alignment requirement of `int`, which no source file
fixes. Section 4.5 takes the element type to be multi-byte with a natural alignment
requirement that the platform enforces, that is, `alignof(int)` is at least two bytes. -/
def Env.intAlignmentEnforced (env : Env) : Prop :=
  2 ≤ env.alignofInt

/-- A sample environment: 4-byte `int`, 8-byte pointers, a heap block at 4096, the stack
at 65536, every byte of memory holding `255`, a scheduler that prefers `main`. -/
def sampleEnv : Env :=
  { sizeofInt := 4, sizeofPtr := 8, alignofInt := 4, mallocBase := 4096, sp := 65536,
    mem := fun _ => 255, sched := fun _ => Tid.main }

/-- The whole standard output. -/
def Outcome.stdout (o : Outcome) : String :=
  String.join o.out

/-- A single line ended by a newline: no newline before the last character, which is
one. -/
def IsLine (s : String) : Prop :=
  ∃ body : List Char, '\n' ∉ body ∧ s.data = body ++ ['\n']

/-- Exactly one diagnostic line, produced by a single print. -/
def OneLinePrint (o : Outcome) : Prop :=
  ∃ line : String, o.out = [line] ∧ IsLine line

/-! ## Rendering of `%i` -/

/-- A decimal digit character is never a newline. -/
theorem digitChar_ne_newline : ∀ d : Nat, d < 10 → Nat.digitChar d ≠ '\n' := by
  decide

/-- The digit string built by `Nat.toDigitsCore` contains no newline when the digits
already collected contain none. -/
theorem toDigitsCore_no_newline (fuel : Nat) :
    ∀ (n : Nat) (ds : List Char), '\n' ∉ ds → '\n' ∉ Nat.toDigitsCore 10 fuel n ds := by
  induction fuel with
  | zero => intro n ds h; simpa [Nat.toDigitsCore] using h
  | succ f ih =>
    intro n ds h
    have hd : '\n' ∉ Nat.digitChar (n % 10) :: ds := by
      intro hm
      rcases List.mem_cons.mp hm with h1 | h1
      · exact digitChar_ne_newline _ (Nat.mod_lt _ (by decide)) h1.symm
      · exact h h1
    simp only [Nat.toDigitsCore]
    split_ifs
    · exact hd
    · exact ih _ _ hd

/-- The decimal rendering of a natural number contains no newline. -/
theorem natRepr_no_newline (n : Nat) : '\n' ∉ (Nat.repr n).data := by
  simp only [Nat.repr, Nat.toDigits, List.asString]
  exact toDigitsCore_no_newline _ _ _ (by simp)

/-- The rendering of `%i` contains no newline. -/
theorem fmt_i_no_newline (v : Int) : '\n' ∉ (fmt_i v).data := by
  unfold fmt_i
  cases v with
  | ofNat n =>
    show '\n' ∉ (Nat.repr n).data
    exact natRepr_no_newline n
  | negSucc n =>
    show '\n' ∉ ("-" ++ Nat.repr (Nat.succ n)).data
    simp only [String.data_append, List.mem_append, not_or]
    exact ⟨by decide, natRepr_no_newline _⟩

/-- A label without newline, a rendered `%i` and a final newline make one line. -/
theorem isLine_label_int (label : String) (v : Int) (h : '\n' ∉ label.data) :
    IsLine (label ++ fmt_i v ++ "\n") := by
  refine ⟨label.data ++ (fmt_i v).data, ?_, ?_⟩
  · simp only [List.mem_append, not_or]
    exact ⟨h, fmt_i_no_newline v⟩
  · simp [String.data_append]

/-! ## Reading zeroed memory -/

/-- Bytes read from a zeroed range are all zero. -/
theorem readBytes_zero (mem : Nat → Nat) (lo hi : Nat)
    (hmem : ∀ b, lo ≤ b → b < hi → mem b % 256 = 0) :
    ∀ (n a : Nat), lo ≤ a → a + n ≤ hi → readBytes mem a n = List.replicate n 0 := by
  intro n
  induction n with
  | zero => intro a _ _; rfl
  | succ k ih =>
    intro a hlo hhi
    simp only [readBytes, List.replicate_succ]
    rw [hmem a hlo (by omega), ih (a + 1) (by omega) (by omega)]

/-- Zero bytes encode the value zero. -/
theorem leValue_replicate_zero (n : Nat) : leValue (List.replicate n 0) = 0 := by
  induction n with
  | zero => rfl
  | succ k ih => simp [List.replicate_succ, leValue, ih]

/-- Zero is zero at every width. -/
theorem toSigned_zero (bits : Nat) : toSigned bits 0 = 0 := by
  simp [toSigned]

/-- An `int` read entirely from zeroed memory is `0`. -/
theorem decodeInt_zero (mem : Nat → Nat) (lo hi a s : Nat)
    (hmem : ∀ b, lo ≤ b → b < hi → mem b % 256 = 0) (hlo : lo ≤ a) (hhi : a + s ≤ hi) :
    decodeInt mem a s = 0 := by
  unfold decodeInt
  rw [readBytes_zero mem lo hi hmem s a hlo hhi, leValue_replicate_zero, toSigned_zero]

/-- Two prints of a label without newline followed by a rendered `%i` contain no
newline. -/
theorem two_prints_no_newline (l1 l2 : String) (v w : Int) (h1 : '\n' ∉ l1.data)
    (h2 : '\n' ∉ l2.data) : '\n' ∉ (String.join [l1 ++ fmt_i v, l2 ++ fmt_i w]).data := by
  have hj : (String.join [l1 ++ fmt_i v, l2 ++ fmt_i w]).data
      = l1.data ++ (fmt_i v).data ++ (l2.data ++ (fmt_i w).data) := by
    simp [String.join, List.foldl, String.data_append]
  rw [hj]
  simp only [List.mem_append, not_or]
  exact ⟨⟨h1, fmt_i_no_newline v⟩, h2, fmt_i_no_newline w⟩

/-! ## Happens-before in programs without synchronisation primitives -/

/-- Nothing outside a set that is closed under the direct orderings is reached from a
point all of whose successors lie in the set. -/
theorem not_transGen_of_closed {α : Type} (r : α → α → Prop) (S : α → Prop) (a b : α)
    (hstart : ∀ y, r a y → S y) (hclosed : ∀ x y, S x → r x y → S y) (hb : ¬ S b) :
    ¬ Relation.TransGen r a b := by
  have hS : ∀ y, Relation.TransGen r a y → S y := by
    intro y h
    induction h with
    | single h1 => exact hstart _ h1
    | tail _ h2 ih => exact hclosed _ _ ih h2
  exact fun h => hb (hS b h)

/-- In a program whose only spawn is statement `sp` of `main`, whose only join is
statement `jn` of `main`, and which uses no mutex, atomic or barrier, a statement of
`main` strictly between the spawn and the join and a statement of the spawned thread are
not ordered by happens-before, in either direction. -/
theorem hb_unordered_between_spawn_and_join {σ : Type} (p : Program σ) (sp jn i j : Nat)
    (hspawn : ∀ (k : Nat) (s : Stmt σ), p.mainCode[k]? = some s → s.sync = Sync.spawn → k = sp)
    (hjoin : ∀ (k : Nat) (s : Stmt σ), p.mainCode[k]? = some s → s.sync = Sync.join → k = jn)
    (hnone : ∀ (tid : Tid) (k : Nat) (s : Stmt σ),
      (p.code tid)[k]? = some s → s.sync.releases = false)
    (h1 : sp < i) (h2 : i < jn) :
    ¬ p.hb (Tid.main, i) (Tid.t, j) ∧ ¬ p.hb (Tid.t, j) (Tid.main, i) := by
  constructor
  · refine not_transGen_of_closed p.edge (fun e => e.1 = Tid.main ∧ i < e.2) _ _ ?_ ?_ ?_
    · rintro ⟨ty, ky⟩ (h | h | h | h)
      · exact ⟨h.1.symm, by have := h.2.1; simp only at this; omega⟩
      · obtain ⟨_, _, s, hs, hs1⟩ := h
        have := hspawn _ _ hs hs1
        simp only at this
        omega
      · exact absurd h.1 (by simp)
      · obtain ⟨_, s, r, hs, _, hrel, _⟩ := h
        have := hnone _ _ _ hs
        simp [this] at hrel
    · rintro ⟨tx, kx⟩ ⟨ty, ky⟩ ⟨hx1, hx2⟩ (h | h | h | h)
      · simp only at hx1 hx2 h
        exact ⟨h.1 ▸ hx1, by omega⟩
      · obtain ⟨_, _, s, hs, hs1⟩ := h
        have := hspawn _ _ hs hs1
        simp only at this hx2
        omega
      · simp only at hx1 h
        exact absurd (hx1 ▸ h.1) (by simp)
      · obtain ⟨_, s, r, hs, _, hrel, _⟩ := h
        have := hnone _ _ _ hs
        simp [this] at hrel
    · simp
  · refine not_transGen_of_closed p.edge
      (fun e => e.1 = Tid.t ∨ (e.1 = Tid.main ∧ jn ≤ e.2)) _ _ ?_ ?_ ?_
    · rintro ⟨ty, ky⟩ (h | h | h | h)
      · exact Or.inl h.1.symm
      · exact absurd h.1 (by simp)
      · obtain ⟨_, _, hy, s, hs, hs1⟩ := h
        have := hjoin _ _ hs hs1
        simp only at this hy
        exact Or.inr ⟨hy, by simp only; omega⟩
      · obtain ⟨_, s, r, hs, _, hrel, _⟩ := h
        have := hnone _ _ _ hs
        simp [this] at hrel
    · rintro ⟨tx, kx⟩ ⟨ty, ky⟩ hx (h | h | h | h)
      · simp only at hx h
        rcases hx with hx | ⟨hx1, hx2⟩
        · exact Or.inl (h.1 ▸ hx)
        · exact Or.inr ⟨h.1 ▸ hx1, by simp only; omega⟩
      · obtain ⟨hm, _, s, hs, hs1⟩ := h
        have := hspawn _ _ hs hs1
        simp only at this hx hm
        rcases hx with hx | ⟨_, hx2⟩
        · exact absurd (hx ▸ hm) (by simp)
        · omega
      · obtain ⟨_, _, hy, s, hs, hs1⟩ := h
        have := hjoin _ _ hs hs1
        simp only at this hy
        exact Or.inr ⟨hy, by simp only; omega⟩
      · obtain ⟨_, s, r, hs, _, hrel, _⟩ := h
        have := hnone _ _ _ hs
        simp [this] at hrel
    · simp
      omega

/-! ## Structure of the two C++ programs -/

/-- The only spawn of `data_race.cpp` is statement 1 of `main`. -/
theorem data_race_spawn_at (k : Nat) (s : Stmt data_race.State)
    (hk : data_race.program.mainCode[k]? = some s) (hs : s.sync = Sync.spawn) : k = 1 := by
  rcases k with _ | _ | _ | _ | _ | k <;>
    simp [data_race.program, data_race.main] at hk <;> subst hk <;> simp at hs ⊢

/-- The only join of `data_race.cpp` is statement 3 of `main`. -/
theorem data_race_join_at (k : Nat) (s : Stmt data_race.State)
    (hk : data_race.program.mainCode[k]? = some s) (hs : s.sync = Sync.join) : k = 3 := by
  rcases k with _ | _ | _ | _ | _ | k <;>
    simp [data_race.program, data_race.main] at hk <;> subst hk <;> simp at hs ⊢

/-- No statement of `data_race.cpp` is a release operation. -/
theorem data_race_no_release (tid : Tid) (k : Nat) (s : Stmt data_race.State)
    (hk : (data_race.program.code tid)[k]? = some s) : s.sync.releases = false := by
  cases tid
  · rcases k with _ | _ | _ | _ | _ | k <;>
      simp [Program.code, data_race.program, data_race.main] at hk <;> subst hk <;> rfl
  · rcases k with _ | k
    · simp only [Program.code, data_race.program, data_race.threadfunc, List.getElem?_cons_zero,
        Option.some.injEq] at hk
      subst hk
      rfl
    · simp [Program.code, data_race.program, data_race.threadfunc] at hk

/-- The only spawn of `tsan_fail.cpp` is statement 1 of `main`. -/
theorem tsan_fail_spawn_at (k : Nat) (s : Stmt tsan_fail.State)
    (hk : tsan_fail.program.mainCode[k]? = some s) (hs : s.sync = Sync.spawn) : k = 1 := by
  rcases k with _ | _ | _ | _ | _ | k <;>
    simp [tsan_fail.program, tsan_fail.main] at hk <;> subst hk <;> simp at hs ⊢

/-- The only join of `tsan_fail.cpp` is statement 3 of `main`. -/
theorem tsan_fail_join_at (k : Nat) (s : Stmt tsan_fail.State)
    (hk : tsan_fail.program.mainCode[k]? = some s) (hs : s.sync = Sync.join) : k = 3 := by
  rcases k with _ | _ | _ | _ | _ | k <;>
    simp [tsan_fail.program, tsan_fail.main] at hk <;> subst hk <;> simp at hs ⊢

/-- No statement of `tsan_fail.cpp` is a release operation. -/
theorem tsan_fail_no_release (tid : Tid) (k : Nat) (s : Stmt tsan_fail.State)
    (hk : (tsan_fail.program.code tid)[k]? = some s) : s.sync.releases = false := by
  cases tid
  · rcases k with _ | _ | _ | _ | _ | k <;>
      simp [Program.code, tsan_fail.program, tsan_fail.main] at hk <;> subst hk <;> rfl
  · rcases k with _ | _ | k <;>
      simp [Program.code, tsan_fail.program, tsan_fail.threadfunc] at hk <;> subst hk <;> rfl

/-! ## All schedules of the two C++ programs -/

/-- Under every schedule `data_race.cpp` has run all its statements after six steps, has
printed the value `0` or the value `1` of `val`, and has returned `0`. -/
theorem data_race_run_all (sched : Nat → Tid) :
    (data_race.program.run sched data_race.program.steps).pcMain = 5
    ∧ (data_race.program.run sched data_race.program.steps).pcT = some 1
    ∧ ((data_race.program.run sched data_race.program.steps).st
          = { val := 1, out := ["foo=0\n"], exit := some 0 }
      ∨ (data_race.program.run sched data_race.program.steps).st
          = { val := 1, out := ["foo=1\n"], exit := some 0 }) := by
  show (data_race.program.run sched 6).pcMain = 5
    ∧ (data_race.program.run sched 6).pcT = some 1
    ∧ ((data_race.program.run sched 6).st = { val := 1, out := ["foo=0\n"], exit := some 0 }
      ∨ (data_race.program.run sched 6).st = { val := 1, out := ["foo=1\n"], exit := some 0 })
  simp only [Program.run]
  generalize sched 0 = c0
  generalize sched 1 = c1
  generalize sched 2 = c2
  generalize sched 3 = c3
  generalize sched 4 = c4
  generalize sched 5 = c5
  cases c0 <;> cases c1 <;> cases c2 <;> cases c3 <;> cases c4 <;> cases c5 <;> decide

/-- Under every schedule `tsan_fail.cpp` has run all its statements after seven steps, has
printed the empty string or `bar`, and has returned `0`. -/
theorem tsan_fail_run_all (sched : Nat → Tid) :
    (tsan_fail.program.run sched tsan_fail.program.steps).pcMain = 5
    ∧ (tsan_fail.program.run sched tsan_fail.program.steps).pcT = some 2
    ∧ ((tsan_fail.program.run sched tsan_fail.program.steps).st
          = { m := [("foo", "bar")], out := ["foo=\n"], exit := some 0 }
      ∨ (tsan_fail.program.run sched tsan_fail.program.steps).st
          = { m := [("foo", "bar")], out := ["foo=bar\n"], exit := some 0 }) := by
  show (tsan_fail.program.run sched 7).pcMain = 5
    ∧ (tsan_fail.program.run sched 7).pcT = some 2
    ∧ ((tsan_fail.program.run sched 7).st
          = { m := [("foo", "bar")], out := ["foo=\n"], exit := some 0 }
      ∨ (tsan_fail.program.run sched 7).st
          = { m := [("foo", "bar")], out := ["foo=bar\n"], exit := some 0 })
  simp only [Program.run]
  generalize sched 0 = c0
  generalize sched 1 = c1
  generalize sched 2 = c2
  generalize sched 3 = c3
  generalize sched 4 = c4
  generalize sched 5 = c5
  generalize sched 6 = c6
  cases c0 <;> cases c1 <;> cases c2 <;> cases c3 <;> cases c4 <;> cases c5 <;> cases c6 <;>
    decide

/-! ## The map of `tsan_fail.cpp` -/

/-- After `map_assign k v` the key `k` maps to `v`. -/
theorem lookup_map_assign (k v : String) (m : tsan_fail.map_t) :
    List.lookup k (tsan_fail.map_assign k v m) = some v := by
  induction m with
  | nil => simp [tsan_fail.map_assign, List.lookup]
  | cons e rest ih =>
    obtain ⟨k1, v1⟩ := e
    simp only [tsan_fail.map_assign]
    split_ifs with h1 h2
    · simp [List.lookup]
    · simp [List.lookup]
    · have hne : (k == k1) = false := by simpa using h2
      simp [List.lookup, hne, ih]

/-- Assigning an absent key adds one entry. -/
theorem length_map_assign_absent (k v : String) (m : tsan_fail.map_t)
    (h : List.lookup k m = none) : (tsan_fail.map_assign k v m).length = m.length + 1 := by
  induction m with
  | nil => simp [tsan_fail.map_assign]
  | cons e rest ih =>
    obtain ⟨k1, v1⟩ := e
    simp only [tsan_fail.map_assign]
    split_ifs with h1 h2
    · simp
    · subst h2
      simp [List.lookup] at h
    · have hne : (k == k1) = false := by simpa using h2
      simp only [List.lookup, hne] at h
      simp [ih h]

/-! # Theorems -/

/-- Claim C1. In `out_of_bounds_heap.c`, with `malloc(sizeof(int))` granting
`[base, base + s)` and `s = sizeof(int) > 0`, the single read `array[1]` addresses
`[base + s, base + 2s)`, the granted block is the only live storage at that moment, the
read touches at least one byte, and no byte it touches lies inside the granted block. -/
theorem C1_index_one_outside_block (argc : Int) (argv : List String) (env : Env)
    (hs : 0 < env.sizeofInt) :
    ∃ a : Access, (out_of_bounds_heap.main argc argv env).1.loads = [a]
      ∧ a.ext = ⟨env.mallocBase + env.sizeofInt, env.sizeofInt⟩
      ∧ a.live = [⟨env.mallocBase, env.sizeofInt⟩]
      ∧ (∃ b, a.ext.contains b)
      ∧ ∀ b, a.ext.contains b → ∀ e ∈ a.live, ¬ e.contains b := by
  refine ⟨_, rfl, ?_, rfl, ?_, ?_⟩
  · simp [Machine.malloc, Machine.init]
  · refine ⟨env.mallocBase + env.sizeofInt, ?_⟩
    simp [Extent.contains, Machine.malloc, Machine.init]
    omega
  · intro b hb e he
    simp [Machine.live, Machine.malloc, Machine.init] at he
    subst he
    simp [Extent.contains, Machine.malloc, Machine.init] at hb ⊢
    omega

/-- Witness for `C1_index_one_outside_block` at `sampleEnv`. -/
theorem C1_index_one_outside_block_witness :
    0 < sampleEnv.sizeofInt ∧
    ∃ a : Access, (out_of_bounds_heap.main 1 ["a.out"] sampleEnv).1.loads = [a]
      ∧ a.ext = ⟨sampleEnv.mallocBase + sampleEnv.sizeofInt, sampleEnv.sizeofInt⟩
      ∧ a.live = [⟨sampleEnv.mallocBase, sampleEnv.sizeofInt⟩]
      ∧ (∃ b, a.ext.contains b)
      ∧ ∀ b, a.ext.contains b → ∀ e ∈ a.live, ¬ e.contains b :=
  ⟨by decide, C1_index_one_outside_block 1 ["a.out"] sampleEnv (by decide)⟩

/-- Claim C2. In `dereferencing_misaligned_pointer.c`, on a platform that enforces an
alignment requirement for `int`, for every address returned by `malloc` that is aligned
for `int`, the two reads are made at `array` and at `misArray`, `misArray` is the address
`array + 1`, and that address is not a multiple of `alignof(int)`. -/
theorem C2_misArray_violates_alignment (argc : Int) (argv : List String) (env : Env)
    (halign : env.intAlignmentEnforced) (hbase : env.mallocBase % env.alignofInt = 0) :
    ∃ a1 a2 : Access,
      (dereferencing_misaligned_pointer.main argc argv env).1.loads = [a1, a2]
      ∧ a1.ext.base = env.mallocBase
      ∧ a2.ext.base = dereferencing_misaligned_pointer.misArray env.mallocBase
      ∧ dereferencing_misaligned_pointer.misArray env.mallocBase = env.mallocBase + 1
      ∧ a2.ext.base % env.alignofInt ≠ 0 := by
  refine ⟨_, _, rfl, rfl, rfl, rfl, ?_⟩
  show (env.mallocBase + 1) % env.alignofInt ≠ 0
  have h2 : 2 ≤ env.alignofInt := halign
  rw [Nat.add_mod, hbase, Nat.zero_add, Nat.mod_mod, Nat.mod_eq_of_lt (by omega)]
  decide

/-- Witness for `C2_misArray_violates_alignment` at `sampleEnv`. -/
theorem C2_misArray_violates_alignment_witness :
    (sampleEnv.intAlignmentEnforced ∧ sampleEnv.mallocBase % sampleEnv.alignofInt = 0) ∧
    ∃ a1 a2 : Access,
      (dereferencing_misaligned_pointer.main 1 ["a.out"] sampleEnv).1.loads = [a1, a2]
      ∧ a1.ext.base = sampleEnv.mallocBase
      ∧ a2.ext.base = dereferencing_misaligned_pointer.misArray sampleEnv.mallocBase
      ∧ dereferencing_misaligned_pointer.misArray sampleEnv.mallocBase
          = sampleEnv.mallocBase + 1
      ∧ a2.ext.base % sampleEnv.alignofInt ≠ 0 :=
  ⟨⟨show 2 ≤ 4 by decide, by decide⟩,
    C2_misArray_violates_alignment 1 ["a.out"] sampleEnv (show 2 ≤ 4 by decide) (by decide)⟩

/-- Claim C3. In `use_after_return.c`, for every stack pointer and every
`sizeof(int) > 0`: inside `setPointerWithEscapedData` the innermost frame is the callee's
and lies on top of the frame of `main`; the address assigned to the global `array` is the
address of `internalArray`, inside the callee's frame and outside the frame of `main`;
after the return `array` still holds that address, only the frame of `main` is live and
no live storage contains the address; and the single read `array[0]` made by `main` is at
that address, no byte of it in live storage. -/
theorem C3_frame_address_escapes (argc : Int) (argv : List String) (env : Env)
    (hs : 0 < env.sizeofInt) :
    ∃ (internalArray : Nat) (frame mainFrame : Extent) (a : Access),
      (use_after_return.setPointerWithEscapedData_body env
          (use_after_return.main_entry env)).stack = [frame, mainFrame]
      ∧ frame = ⟨internalArray, 1 * env.sizeofInt⟩
      ∧ (use_after_return.setPointerWithEscapedData_body env
          (use_after_return.main_entry env)).array = internalArray
      ∧ frame.contains internalArray
      ∧ ¬ mainFrame.contains internalArray
      ∧ (use_after_return.setPointerWithEscapedData env
          (use_after_return.main_entry env)).array = internalArray
      ∧ (use_after_return.setPointerWithEscapedData env
          (use_after_return.main_entry env)).live = [mainFrame]
      ∧ (∀ e ∈ (use_after_return.setPointerWithEscapedData env
          (use_after_return.main_entry env)).live, ¬ e.contains internalArray)
      ∧ (use_after_return.main argc argv env).1.loads = [a]
      ∧ a.ext = ⟨internalArray, env.sizeofInt⟩
      ∧ a.live = [mainFrame]
      ∧ ∀ b, a.ext.contains b → ∀ e ∈ a.live, ¬ e.contains b := by
  refine ⟨env.sp + (env.sizeofInt + env.sizeofPtr),
    ⟨env.sp + (env.sizeofInt + env.sizeofPtr), 1 * env.sizeofInt⟩,
    ⟨env.sp, env.sizeofInt + env.sizeofPtr⟩, _, rfl, rfl, rfl, ?_, ?_, rfl, rfl, ?_, rfl,
    ?_, rfl, ?_⟩
  · show env.sp + (env.sizeofInt + env.sizeofPtr) ≤ env.sp + (env.sizeofInt + env.sizeofPtr)
      ∧ env.sp + (env.sizeofInt + env.sizeofPtr)
        < env.sp + (env.sizeofInt + env.sizeofPtr) + 1 * env.sizeofInt
    omega
  · intro h
    have h1 : env.sp ≤ env.sp + (env.sizeofInt + env.sizeofPtr)
      ∧ env.sp + (env.sizeofInt + env.sizeofPtr)
        < env.sp + (env.sizeofInt + env.sizeofPtr) := h
    omega
  · intro e he
    have he1 : e ∈ [(⟨env.sp, env.sizeofInt + env.sizeofPtr⟩ : Extent)] := he
    rw [List.mem_singleton] at he1
    subst he1
    intro h
    have h1 : env.sp ≤ env.sp + (env.sizeofInt + env.sizeofPtr)
      ∧ env.sp + (env.sizeofInt + env.sizeofPtr)
        < env.sp + (env.sizeofInt + env.sizeofPtr) := h
    omega
  · show (⟨env.sp + (env.sizeofInt + env.sizeofPtr) + 0 * env.sizeofInt, env.sizeofInt⟩ : Extent)
      = ⟨env.sp + (env.sizeofInt + env.sizeofPtr), env.sizeofInt⟩
    simp
  · intro b hb e he
    have hb1 : env.sp + (env.sizeofInt + env.sizeofPtr) + 0 * env.sizeofInt ≤ b
      ∧ b < env.sp + (env.sizeofInt + env.sizeofPtr) + 0 * env.sizeofInt + env.sizeofInt := hb
    have he1 : e ∈ [(⟨env.sp, env.sizeofInt + env.sizeofPtr⟩ : Extent)] := he
    rw [List.mem_singleton] at he1
    subst he1
    intro h
    have h1 : env.sp ≤ b ∧ b < env.sp + (env.sizeofInt + env.sizeofPtr) := h
    omega

/-- Witness for `C3_frame_address_escapes` at `sampleEnv`. -/
theorem C3_frame_address_escapes_witness :
    0 < sampleEnv.sizeofInt ∧
    ∃ (internalArray : Nat) (frame mainFrame : Extent) (a : Access),
      (use_after_return.setPointerWithEscapedData_body sampleEnv
          (use_after_return.main_entry sampleEnv)).stack = [frame, mainFrame]
      ∧ frame = ⟨internalArray, 1 * sampleEnv.sizeofInt⟩
      ∧ (use_after_return.setPointerWithEscapedData_body sampleEnv
          (use_after_return.main_entry sampleEnv)).array = internalArray
      ∧ frame.contains internalArray
      ∧ ¬ mainFrame.contains internalArray
      ∧ (use_after_return.setPointerWithEscapedData sampleEnv
          (use_after_return.main_entry sampleEnv)).array = internalArray
      ∧ (use_after_return.setPointerWithEscapedData sampleEnv
          (use_after_return.main_entry sampleEnv)).live = [mainFrame]
      ∧ (∀ e ∈ (use_after_return.setPointerWithEscapedData sampleEnv
          (use_after_return.main_entry sampleEnv)).live, ¬ e.contains internalArray)
      ∧ (use_after_return.main 1 ["a.out"] sampleEnv).1.loads = [a]
      ∧ a.ext = ⟨internalArray, sampleEnv.sizeofInt⟩
      ∧ a.live = [mainFrame]
      ∧ ∀ b, a.ext.contains b → ∀ e ∈ a.live, ¬ e.contains b :=
  ⟨by decide, C3_frame_address_escapes 1 ["a.out"] sampleEnv (by decide)⟩

/-- Claim C4. In `use_after_scope.c`, for every stack pointer and every `sizeof(int) > 0`:
inside the inner block the innermost live object is `internalArray`, on top of the frame
of `main`; the address assigned to `array` is the address of `internalArray`, inside that
object and outside the frame of `main`; at the end of the block `array` still holds that
address, only the frame of `main` is live and no live storage contains the address; and
the single read `array[0]`, made in the state the block leaves (`main` has no statement
in between), is at that address, no byte of it in live storage. -/
theorem C4_block_address_outlives_block (argc : Int) (argv : List String) (env : Env)
    (hs : 0 < env.sizeofInt) :
    ∃ (internalArray : Nat) (frame mainFrame : Extent) (a : Access),
      (use_after_scope.main_block_body env
          (use_after_scope.main_entry env)).stack = [frame, mainFrame]
      ∧ frame = ⟨internalArray, 1 * env.sizeofInt⟩
      ∧ (use_after_scope.main_block_body env
          (use_after_scope.main_entry env)).array = internalArray
      ∧ frame.contains internalArray
      ∧ ¬ mainFrame.contains internalArray
      ∧ (use_after_scope.main_block env
          (use_after_scope.main_entry env)).array = internalArray
      ∧ (use_after_scope.main_block env
          (use_after_scope.main_entry env)).live = [mainFrame]
      ∧ (∀ e ∈ (use_after_scope.main_block env
          (use_after_scope.main_entry env)).live, ¬ e.contains internalArray)
      ∧ (use_after_scope.main argc argv env).1.array = internalArray
      ∧ (use_after_scope.main argc argv env).1.loads = [a]
      ∧ a.ext = ⟨internalArray, env.sizeofInt⟩
      ∧ a.live = [mainFrame]
      ∧ ∀ b, a.ext.contains b → ∀ e ∈ a.live, ¬ e.contains b := by
  refine ⟨env.sp + (env.sizeofInt + env.sizeofPtr + env.sizeofPtr),
    ⟨env.sp + (env.sizeofInt + env.sizeofPtr + env.sizeofPtr), 1 * env.sizeofInt⟩,
    ⟨env.sp, env.sizeofInt + env.sizeofPtr + env.sizeofPtr⟩, _, rfl, rfl, rfl, ?_, ?_, rfl,
    rfl, ?_, rfl, rfl, ?_, rfl, ?_⟩
  · show env.sp + (env.sizeofInt + env.sizeofPtr + env.sizeofPtr) ≤ env.sp + (env.sizeofInt + env.sizeofPtr + env.sizeofPtr)
      ∧ env.sp + (env.sizeofInt + env.sizeofPtr + env.sizeofPtr)
        < env.sp + (env.sizeofInt + env.sizeofPtr + env.sizeofPtr) + 1 * env.sizeofInt
    omega
  · intro h
    have h1 : env.sp ≤ env.sp + (env.sizeofInt + env.sizeofPtr + env.sizeofPtr)
      ∧ env.sp + (env.sizeofInt + env.sizeofPtr + env.sizeofPtr)
        < env.sp + (env.sizeofInt + env.sizeofPtr + env.sizeofPtr) := h
    omega
  · intro e he
    have he1 : e ∈ [(⟨env.sp, env.sizeofInt + env.sizeofPtr + env.sizeofPtr⟩ : Extent)] := he
    rw [List.mem_singleton] at he1
    subst he1
    intro h
    have h1 : env.sp ≤ env.sp + (env.sizeofInt + env.sizeofPtr + env.sizeofPtr)
      ∧ env.sp + (env.sizeofInt + env.sizeofPtr + env.sizeofPtr)
        < env.sp + (env.sizeofInt + env.sizeofPtr + env.sizeofPtr) := h
    omega
  · show (⟨env.sp + (env.sizeofInt + env.sizeofPtr + env.sizeofPtr) + 0 * env.sizeofInt, env.sizeofInt⟩ : Extent)
      = ⟨env.sp + (env.sizeofInt + env.sizeofPtr + env.sizeofPtr), env.sizeofInt⟩
    simp
  · intro b hb e he
    have hb1 : env.sp + (env.sizeofInt + env.sizeofPtr + env.sizeofPtr) + 0 * env.sizeofInt ≤ b
      ∧ b < env.sp + (env.sizeofInt + env.sizeofPtr + env.sizeofPtr) + 0 * env.sizeofInt + env.sizeofInt := hb
    have he1 : e ∈ [(⟨env.sp, env.sizeofInt + env.sizeofPtr + env.sizeofPtr⟩ : Extent)] := he
    rw [List.mem_singleton] at he1
    subst he1
    intro h
    have h1 : env.sp ≤ b ∧ b < env.sp + (env.sizeofInt + env.sizeofPtr + env.sizeofPtr) := h
    omega

/-- Witness for `C4_block_address_outlives_block` at `sampleEnv`. -/
theorem C4_block_address_outlives_block_witness :
    0 < sampleEnv.sizeofInt ∧
    ∃ (internalArray : Nat) (frame mainFrame : Extent) (a : Access),
      (use_after_scope.main_block_body sampleEnv
          (use_after_scope.main_entry sampleEnv)).stack = [frame, mainFrame]
      ∧ frame = ⟨internalArray, 1 * sampleEnv.sizeofInt⟩
      ∧ (use_after_scope.main_block_body sampleEnv
          (use_after_scope.main_entry sampleEnv)).array = internalArray
      ∧ frame.contains internalArray
      ∧ ¬ mainFrame.contains internalArray
      ∧ (use_after_scope.main_block sampleEnv
          (use_after_scope.main_entry sampleEnv)).array = internalArray
      ∧ (use_after_scope.main_block sampleEnv
          (use_after_scope.main_entry sampleEnv)).live = [mainFrame]
      ∧ (∀ e ∈ (use_after_scope.main_block sampleEnv
          (use_after_scope.main_entry sampleEnv)).live, ¬ e.contains internalArray)
      ∧ (use_after_scope.main 1 ["a.out"] sampleEnv).1.array = internalArray
      ∧ (use_after_scope.main 1 ["a.out"] sampleEnv).1.loads = [a]
      ∧ a.ext = ⟨internalArray, sampleEnv.sizeofInt⟩
      ∧ a.live = [mainFrame]
      ∧ ∀ b, a.ext.contains b → ∀ e ∈ a.live, ¬ e.contains b :=
  ⟨by decide, C4_block_address_outlives_block 1 ["a.out"] sampleEnv (by decide)⟩

/-- Claim C5. Both data-race programs have two threads: `main` spawns exactly one thread
(statement 1) and the spawned thread spawns none; `main` accesses the shared object (`val`,
resp. the map `m`) in statement 2, after the spawn and before the only join (statement 3),
which precedes the last statement of `main`, its return (statement 4 of 5); statement 0 of
the spawned thread writes the same object; no statement of either thread uses a mutex, an
atomic operation or a memory barrier; and the access of `main` and the write of the thread
are not ordered by happens-before in either direction. Both orders occur: one schedule
prints the value before the write, another the value after it. -/
theorem C5_conflicting_accesses_unordered :
    (syncIndices data_race.program.mainCode Sync.spawn = [1]
      ∧ syncIndices data_race.program.threadCode Sync.spawn = []
      ∧ syncIndices data_race.program.mainCode Sync.join = [3]
      ∧ data_race.program.mainCode.length = 5
      ∧ (data_race.program.mainCode[2]?).map (fun s => s.acc) = some (some ("val", false))
      ∧ (data_race.program.threadCode[0]?).map (fun s => s.acc) = some (some ("val", true))
      ∧ (∀ s ∈ data_race.program.mainCode ++ data_race.program.threadCode,
          s.usesSyncPrimitive = false)
      ∧ ¬ data_race.program.hb (Tid.main, 2) (Tid.t, 0)
      ∧ ¬ data_race.program.hb (Tid.t, 0) (Tid.main, 2)
      ∧ (data_race.program.run (fun _ => Tid.main) data_race.program.steps).st.out
          = ["foo=0\n"]
      ∧ (data_race.program.run (fun _ => Tid.t) data_race.program.steps).st.out
          = ["foo=1\n"])
    ∧ (syncIndices tsan_fail.program.mainCode Sync.spawn = [1]
      ∧ syncIndices tsan_fail.program.threadCode Sync.spawn = []
      ∧ syncIndices tsan_fail.program.mainCode Sync.join = [3]
      ∧ tsan_fail.program.mainCode.length = 5
      ∧ (tsan_fail.program.mainCode[2]?).map (fun s => s.acc) = some (some ("m", true))
      ∧ (tsan_fail.program.threadCode[0]?).map (fun s => s.acc) = some (some ("m", true))
      ∧ (∀ s ∈ tsan_fail.program.mainCode ++ tsan_fail.program.threadCode,
          s.usesSyncPrimitive = false)
      ∧ ¬ tsan_fail.program.hb (Tid.main, 2) (Tid.t, 0)
      ∧ ¬ tsan_fail.program.hb (Tid.t, 0) (Tid.main, 2)
      ∧ (tsan_fail.program.run (fun _ => Tid.main) tsan_fail.program.steps).st.out
          = ["foo=\n"]
      ∧ (tsan_fail.program.run (fun _ => Tid.t) tsan_fail.program.steps).st.out
          = ["foo=bar\n"]) := by
  have h1 := hb_unordered_between_spawn_and_join data_race.program 1 3 2 0
    data_race_spawn_at data_race_join_at data_race_no_release (by decide) (by decide)
  have h2 := hb_unordered_between_spawn_and_join tsan_fail.program 1 3 2 0
    tsan_fail_spawn_at tsan_fail_join_at tsan_fail_no_release (by decide) (by decide)
  refine ⟨⟨by decide, by decide, by decide, by decide, by decide, by decide, by decide,
    h1.1, h1.2, by decide, by decide⟩, by decide, by decide, by decide, by decide, by decide,
    by decide, by decide, h2.1, h2.2, by decide, by decide⟩

/-- Claim C6, refuted as stated: `dereferencing_misaligned_pointer.c` prints twice, and the
text it prints is not a newline-terminated line. -/
theorem C6_counterexample_misaligned_two_prints :
    (exec Example.dereferencing_misaligned_pointer 1 ["a.out"] sampleEnv).out
        = ["aligned: 0", "aligned: 0"]
    ∧ ¬ OneLinePrint (exec Example.dereferencing_misaligned_pointer 1 ["a.out"] sampleEnv)
    ∧ ¬ IsLine (exec Example.dereferencing_misaligned_pointer 1 ["a.out"] sampleEnv).stdout := by
  have hout : (exec Example.dereferencing_misaligned_pointer 1 ["a.out"] sampleEnv).out
      = ["aligned: 0", "aligned: 0"] := by decide
  refine ⟨hout, ?_, ?_⟩
  · rintro ⟨line, hl, _⟩
    rw [hout] at hl
    simp at hl
  · rintro ⟨body, _, hb⟩
    have hmem : '\n' ∈ (exec Example.dereferencing_misaligned_pointer 1 ["a.out"]
        sampleEnv).stdout.data := by
      rw [hb]
      simp
    revert hmem
    simp only [Outcome.stdout, hout]
    decide

/-- Claim C6, amended. Each of the five programs other than
`dereferencing_misaligned_pointer.c` writes exactly one newline-terminated line, by a single
print, under every environment and schedule; in the three C programs among them it is
`val: `, the value of the one read, and a newline. `dereferencing_misaligned_pointer.c`
prints twice, `aligned: ` and the value of the aligned read, then `aligned: ` and the value
of the read through `misArray`, and no newline occurs before the last character of its
output. -/
theorem C6_output_lines (argc : Int) (argv : List String) (env : Env) :
    OneLinePrint (exec Example.out_of_bounds_heap argc argv env)
    ∧ OneLinePrint (exec Example.use_after_return argc argv env)
    ∧ OneLinePrint (exec Example.use_after_scope argc argv env)
    ∧ OneLinePrint (exec Example.data_race argc argv env)
    ∧ OneLinePrint (exec Example.tsan_fail argc argv env)
    ∧ (out_of_bounds_heap.main argc argv env).1.out
        = (out_of_bounds_heap.main argc argv env).1.loads.map
            (fun a => "val: " ++ fmt_i a.value ++ "\n")
    ∧ (use_after_return.main argc argv env).1.out
        = (use_after_return.main argc argv env).1.loads.map
            (fun a => "val: " ++ fmt_i a.value ++ "\n")
    ∧ (use_after_scope.main argc argv env).1.out
        = (use_after_scope.main argc argv env).1.loads.map
            (fun a => "val: " ++ fmt_i a.value ++ "\n")
    ∧ (∃ a1 a2 : Access,
        (dereferencing_misaligned_pointer.main argc argv env).1.loads = [a1, a2]
        ∧ (exec Example.dereferencing_misaligned_pointer argc argv env).out
            = ["aligned: " ++ fmt_i a1.value, "aligned: " ++ fmt_i a2.value])
    ∧ '\n' ∉ (exec Example.dereferencing_misaligned_pointer argc argv env).stdout.data.dropLast := by
  have hval : '\n' ∉ "val: ".data := by decide
  refine ⟨⟨_, rfl, isLine_label_int _ _ hval⟩, ⟨_, rfl, isLine_label_int _ _ hval⟩,
    ⟨_, rfl, isLine_label_int _ _ hval⟩, ?_, ?_, rfl, rfl, rfl, ⟨_, _, rfl, rfl⟩, ?_⟩
  · rcases (data_race_run_all env.sched).2.2 with h | h
    · exact ⟨"foo=0\n", by simp only [exec]; rw [h], "foo=0".data, by decide, rfl⟩
    · exact ⟨"foo=1\n", by simp only [exec]; rw [h], "foo=1".data, by decide, rfl⟩
  · rcases (tsan_fail_run_all env.sched).2.2 with h | h
    · exact ⟨"foo=\n", by simp only [exec]; rw [h], "foo=".data, by decide, rfl⟩
    · exact ⟨"foo=bar\n", by simp only [exec]; rw [h], "foo=bar".data, by decide, rfl⟩
  · intro hmem
    exact two_prints_no_newline "aligned: " "aligned: " _ _ (by decide) (by decide)
      (List.mem_of_mem_dropLast hmem)

/-- Claim C7, refuted as stated: on the empty map the access `m["foo"]` of `main` inserts
the key `foo` with an empty string, so the map after the access differs from the map before
it; under the schedule that always prefers `main` this is what happens in `tsan_fail.cpp`
(the map is empty after two steps and holds `foo` after the third, the `printf` of
`main`). -/
theorem C7_counterexample_empty_map :
    (tsan_fail.main_access { m := [], out := [], exit := none }).m = [("foo", "")]
    ∧ (tsan_fail.main_access { m := [], out := [], exit := none }).m
        ≠ ({ m := [], out := [], exit := none } : tsan_fail.State).m
    ∧ (tsan_fail.program.run (fun _ => Tid.main) 2).st.m = []
    ∧ (tsan_fail.program.run (fun _ => Tid.main) 2).pcMain = 2
    ∧ (tsan_fail.program.run (fun _ => Tid.main) 3).st.m = [("foo", "")] := by
  decide

/-- Claim C7, amended. In `tsan_fail.cpp` the spawned thread maps `foo` to `bar`, whatever
the map held. The access `m["foo"]` of `main` (the map part of statement 2 of `main`) leaves
the map unchanged exactly when the key `foo` is already present; when it is absent the
access inserts `foo` with an empty string, one entry more. In both cases `foo` is present
afterwards and the printed text and exit code are untouched by the access. -/
theorem C7_main_access_inserts_absent_key (s : tsan_fail.State) :
    (tsan_fail.program.threadCode[0]?).map (fun st => List.lookup "foo" (st.eff s).m)
        = some (some "bar")
    ∧ (tsan_fail.program.mainCode[2]?).map (fun st => (st.eff s).m)
        = some (tsan_fail.main_access s).m
    ∧ ((tsan_fail.main_access s).m = s.m ↔ (List.lookup "foo" s.m).isSome = true)
    ∧ (tsan_fail.main_access s).m
        = (if (List.lookup "foo" s.m).isSome = true then s.m
           else tsan_fail.map_assign "foo" "" s.m)
    ∧ (tsan_fail.main_access s).m.length
        = (if (List.lookup "foo" s.m).isSome = true then s.m.length else s.m.length + 1)
    ∧ (List.lookup "foo" (tsan_fail.main_access s).m).isSome = true
    ∧ (tsan_fail.main_access s).out = s.out
    ∧ (tsan_fail.main_access s).exit = s.exit := by
  have hthread : (tsan_fail.program.threadCode[0]?).map
      (fun st => List.lookup "foo" (st.eff s).m) = some (some "bar") := by
    show some (List.lookup "foo"
      (tsan_fail.map_assign "foo" "bar" (tsan_fail.map_index s.m "foo"))) = some (some "bar")
    rw [lookup_map_assign]
  have hidx : (tsan_fail.main_access s).m = tsan_fail.map_index s.m "foo" := rfl
  refine ⟨hthread, rfl, ?_, ?_, ?_, ?_, rfl, rfl⟩
  all_goals
    rw [hidx]
    unfold tsan_fail.map_index
    cases h : List.lookup "foo" s.m with
    | some v => simp [h]
    | none =>
      have hlen := length_map_assign_absent "foo" "" s.m h
      have hlook := lookup_map_assign "foo" "" s.m
      first
        | (simp [hlen, hlook]; done)
        | (simp only [Option.isSome_none, Bool.false_eq_true, iff_false]
           intro heq
           rw [heq] at hlen
           omega)


/-- Claim C8, refuted as stated: `main` of `data_race.cpp` and of `tsan_fail.cpp` is
declared as `int main()`, without `argc` and `argv`. -/
theorem C8_counterexample_main_without_parameters :
    mainParams Example.data_race = []
    ∧ mainParams Example.tsan_fail = []
    ∧ ¬ (∀ e : Example, mainParams e = ["int argc", "char **argv"]) := by
  refine ⟨rfl, rfl, ?_⟩
  intro h
  exact absurd (h Example.data_race) (by decide)

/-- Claim C8, amended. For each of the six programs and every pair of argument vectors,
with the same environment (memory contents, addresses, schedule), the printed text and the
exit code are identical. The four C programs declare `main(int argc, char **argv)` and read
neither parameter; the two C++ programs declare `main()` with no parameters. -/
theorem C8_arguments_ignored (e : Example) (argc argc2 : Int) (argv argv2 : List String)
    (env : Env) :
    exec e argc argv env = exec e argc2 argv2 env
    ∧ mainParams e
        = (if e = Example.data_race ∨ e = Example.tsan_fail then []
           else ["int argc", "char **argv"]) := by
  cases e <;> exact ⟨rfl, by decide⟩

/-- Claim C9. For each of the six programs, under every environment (initial memory, and
with it the value the faulty read returns, addresses, sizes, schedule) `main` returns and
the exit code is `0`; in the two C++ programs `main` and the spawned thread have both run
all their statements after as many scheduling steps as the program has statements. -/
theorem C9_exit_code_zero (e : Example) (argc : Int) (argv : List String) (env : Env) :
    (exec e argc argv env).exit = some 0
    ∧ data_race.program.finished (data_race.program.run env.sched data_race.program.steps)
    ∧ (data_race.program.run env.sched data_race.program.steps).pcT
        = some data_race.program.threadCode.length
    ∧ tsan_fail.program.finished (tsan_fail.program.run env.sched tsan_fail.program.steps)
    ∧ (tsan_fail.program.run env.sched tsan_fail.program.steps).pcT
        = some tsan_fail.program.threadCode.length := by
  have hd := data_race_run_all env.sched
  have ht := tsan_fail_run_all env.sched
  refine ⟨?_, hd.1, hd.2.1, ht.1, ht.2.1⟩
  cases e
  · rfl
  · rfl
  · rfl
  · rfl
  · show (data_race.program.run env.sched data_race.program.steps).st.exit = some 0
    rcases hd.2.2 with h | h <;> rw [h]
  · show (tsan_fail.program.run env.sched tsan_fail.program.steps).st.exit = some 0
    rcases ht.2.2 with h | h <;> rw [h]

/-- Claim C10. In `dereferencing_misaligned_pointer.c`, for every `sizeof(int) = s ≥ 1`,
the read through `misArray` covers offsets `[1, 1 + s)` of the block, the block of `10 * s`
bytes is live at that moment, `1 + s ≤ 10 * s`, every byte read lies inside the block,
every byte of the block is zero after `memset`, and the value read is `0`, equal to the
value of the preceding aligned read `*array`. -/
theorem C10_misaligned_read_inside_zeroed_block (argc : Int) (argv : List String)
    (env : Env) (hs : 1 ≤ env.sizeofInt) :
    ∃ a1 a2 : Access,
      (dereferencing_misaligned_pointer.main argc argv env).1.loads = [a1, a2]
      ∧ a1.ext = ⟨env.mallocBase, env.sizeofInt⟩
      ∧ a2.ext = ⟨env.mallocBase + 1, env.sizeofInt⟩
      ∧ a2.live = [⟨env.mallocBase, 10 * env.sizeofInt⟩]
      ∧ 1 + env.sizeofInt ≤ 10 * env.sizeofInt
      ∧ (∀ b, a2.ext.contains b →
          (⟨env.mallocBase, 10 * env.sizeofInt⟩ : Extent).contains b)
      ∧ (∀ b, (⟨env.mallocBase, 10 * env.sizeofInt⟩ : Extent).contains b →
          (dereferencing_misaligned_pointer.main argc argv env).1.mem b = 0)
      ∧ a2.value = 0
      ∧ a2.value = a1.value := by
  have hz : ∀ b, env.mallocBase ≤ b → b < env.mallocBase + 10 * env.sizeofInt →
      (fun b => if env.mallocBase ≤ b ∧ b < env.mallocBase + 10 * env.sizeofInt
        then 0 % 256 else env.mem b) b % 256 = 0 := by
    intro b h1 h2
    simp [h1, h2]
  have h1 : decodeInt (fun b => if env.mallocBase ≤ b ∧ b < env.mallocBase + 10 * env.sizeofInt
        then 0 % 256 else env.mem b) env.mallocBase env.sizeofInt = 0 :=
    decodeInt_zero _ env.mallocBase (env.mallocBase + 10 * env.sizeofInt) _ _ hz
      (Nat.le_refl _) (by omega)
  have h2 : decodeInt (fun b => if env.mallocBase ≤ b ∧ b < env.mallocBase + 10 * env.sizeofInt
        then 0 % 256 else env.mem b) (env.mallocBase + 1) env.sizeofInt = 0 :=
    decodeInt_zero _ env.mallocBase (env.mallocBase + 10 * env.sizeofInt) _ _ hz
      (by omega) (by omega)
  refine ⟨_, _, rfl, rfl, rfl, rfl, by omega, ?_, ?_, ?_, ?_⟩
  · intro b hb
    have hb1 : env.mallocBase + 1 ≤ b ∧ b < env.mallocBase + 1 + env.sizeofInt := hb
    show env.mallocBase ≤ b ∧ b < env.mallocBase + 10 * env.sizeofInt
    omega
  · intro b hb
    have hb1 : env.mallocBase ≤ b ∧ b < env.mallocBase + 10 * env.sizeofInt := hb
    show (if env.mallocBase ≤ b ∧ b < env.mallocBase + 10 * env.sizeofInt
        then 0 % 256 else env.mem b) = 0
    simp [hb1.1, hb1.2]
  · exact h2
  · exact h2.trans h1.symm

/-- Witness for `C10_misaligned_read_inside_zeroed_block` at `sampleEnv`. -/
theorem C10_misaligned_read_inside_zeroed_block_witness :
    1 ≤ sampleEnv.sizeofInt ∧
    ∃ a1 a2 : Access,
      (dereferencing_misaligned_pointer.main 1 ["a.out"] sampleEnv).1.loads = [a1, a2]
      ∧ a1.ext = ⟨sampleEnv.mallocBase, sampleEnv.sizeofInt⟩
      ∧ a2.ext = ⟨sampleEnv.mallocBase + 1, sampleEnv.sizeofInt⟩
      ∧ a2.live = [⟨sampleEnv.mallocBase, 10 * sampleEnv.sizeofInt⟩]
      ∧ 1 + sampleEnv.sizeofInt ≤ 10 * sampleEnv.sizeofInt
      ∧ (∀ b, a2.ext.contains b →
          (⟨sampleEnv.mallocBase, 10 * sampleEnv.sizeofInt⟩ : Extent).contains b)
      ∧ (∀ b, (⟨sampleEnv.mallocBase, 10 * sampleEnv.sizeofInt⟩ : Extent).contains b →
          (dereferencing_misaligned_pointer.main 1 ["a.out"] sampleEnv).1.mem b = 0)
      ∧ a2.value = 0
      ∧ a2.value = a1.value :=
  ⟨by decide, C10_misaligned_read_inside_zeroed_block 1 ["a.out"] sampleEnv (by decide)⟩

end SanitizerExamples
